import Mathlib

/-!
Shallow embedding of the CKB transaction-assembly and query layer of the
forcerelay repository, covering
crates/relayer/src/chain/ckb/assembler.rs (the TxAssembler trait) and
crates/relayer/src/chain/ckb4ibc.rs (the Ckb4IbcChain endpoint).

External collaborators (the ledger RPC, the molecule codecs of the
eth_light_client_in_ckb_verification and ckb_ics_axon crates, the signing
and fee-balancing ports) are modelled abstractly: ledger query results are
parameters of the embedded functions, and serializations are injective
constructors.  Rust panics (panic, expect, unwrap, division by zero) are
modelled as an explicit fatal result constructor; recoverable
Result::Err values as an explicit error constructor.  Machine integers are
naturals with explicit wraparound where the source can overflow in
release mode.
-/

set_option maxHeartbeats 1000000

namespace Forcerelay

/-- ckb_types packed OutPoint: a transaction hash and an output index,
both abstracted to naturals. -/
structure OutPoint where
  txHash : Nat
  index : Nat
deriving DecidableEq

/-- ckb_types packed CellInput: the consumed out point plus the since field
(the assembler always builds inputs with since 0). -/
structure CellInput where
  previousOutput : OutPoint
  since : Nat
deriving DecidableEq

/-- A type-id value.  utils::calculate_type_id (hashing of the first input
and the output count) is outside src, so it is modelled from the spec as an
opaque injective value determined by exactly those two arguments; type-id
bytes already on chain are the raw constructor. -/
inductive TypeId where
  | raw (bytes : List Nat)
  | fromInput (firstInput : CellInput) (outputsCount : Nat)
deriving DecidableEq

/-- eth_light_client_in_ckb_verification packed ClientTypeArgs:
a cells_count u8 and a 32-byte type id. -/
structure ClientTypeArgs where
  cellsCount : Nat
  typeId : TypeId
deriving DecidableEq

/-- ckb script hash_type: the assembler always uses ScriptHashType::Type. -/
inductive HashType where
  | typeHash
  | dataHash
deriving DecidableEq

/-- Script args bytes.  ClientTypeArgs serialization
(packed Bytes holding client_type_args.as_slice) is kept as an injective
constructor carrying the decoded fields. -/
inductive ScriptArgs where
  | raw (bytes : List Nat)
  | clientTypeArgs (cellsCount : Nat) (typeId : TypeId)
deriving DecidableEq

/-- A 32-byte hash value: either the fixed TYPE_ID_CODE_HASH constant or the
hash of a script (calc_script_hash modelled as an injective constructor,
i.e. collision-free hashing). -/
inductive Hash32 where
  | typeIdCodeHash
  | ofScript (codeHash : Hash32) (hashType : HashType) (args : ScriptArgs)
deriving DecidableEq

/-- ckb_types packed Script: code hash, hash type and args. -/
structure Script where
  codeHash : Hash32
  hashType : HashType
  args : ScriptArgs
deriving DecidableEq

/-- Script::calc_script_hash, modelled as the injective Hash32 constructor. -/
def calcScriptHash (s : Script) : Hash32 :=
  Hash32.ofScript s.codeHash s.hashType s.args

/-- assembler.rs make_typeid_script: TYPE_ID_CODE_HASH, hash type Type,
the supplied args bytes. -/
def makeTypeidScript (typeArgs : List Nat) : Script :=
  ⟨Hash32.typeIdCodeHash, HashType.typeHash, ScriptArgs.raw typeArgs⟩

/-- assembler.rs make_lightclient_script: the supplied script type hash,
hash type Type, the supplied args bytes. -/
def makeLightclientScript (scriptTypehash : Hash32) (args : List Nat) : Script :=
  ⟨scriptTypehash, HashType.typeHash, ScriptArgs.raw args⟩

/-- Byte length of script args: raw bytes count themselves; a serialized
ClientTypeArgs is the fixed 33-byte molecule struct (1-byte cells_count plus
a 32-byte type id). -/
def ScriptArgs.byteLen : ScriptArgs → Nat
  | ScriptArgs.raw bytes => bytes.length
  | ScriptArgs.clientTypeArgs _ _ => 33

/-- Occupied byte size of a script as used by occupied_capacity:
32-byte code hash, 1-byte hash type, plus the args bytes. -/
def Script.occupiedBytes (s : Script) : Nat :=
  32 + 1 + s.args.byteLen

/-- Occupied byte size of an optional type script (none occupies nothing). -/
def typeOccupiedBytes : Option Script → Nat
  | none => 0
  | some s => s.occupiedBytes

/-- Abstract cell data payload.  The external molecule codec is abstracted:
clientOk models PackedClientReader::verify succeeding, infoOk models
PackedClientInfoReader::verify succeeding, clientId is the u8 read by
PackedClient::new_unchecked(..).id(), infoLastId the u8 read by
PackedClientInfo::new_unchecked(..).last_id(), and len the byte length of
the payload. -/
structure CellData where
  clientOk : Bool
  infoOk : Bool
  clientId : Nat
  infoLastId : Nat
  len : Nat
deriving DecidableEq

/-- PackedClientInfo::new_unchecked(bytes).as_builder().last_id(x).build():
rebuilds the same info payload with the last_id field replaced; all other
fields (hence the byte length of the fixed-layout record) are preserved. -/
def setLastId (d : CellData) (x : Nat) : CellData :=
  { d with infoLastId := x }

/-- ckb_types packed CellOutput: capacity in shannons, lock script and
optional type script. -/
structure CellOutput where
  capacity : Nat
  lock : Script
  type_ : Option Script
deriving DecidableEq

/-- ckb_sdk LiveCell as used by the assembler: its out point, its output
(lock, type, capacity) and its data payload. -/
structure LiveCell where
  outPoint : OutPoint
  output : CellOutput
  outputData : CellData
deriving DecidableEq

/-- assembler.rs UpdateCells: the oldest, latest and info cells of a
multi-client group. -/
structure UpdateCells where
  oldest : LiveCell
  latest : LiveCell
  info : LiveCell
deriving DecidableEq

/-- The distinct process-aborting panic sites of the embedded code. -/
inductive PanicMsg where
  | countMismatch (expected actual : Nat)
  | duplicateInfo (firstData secondData : CellData)
  | invalidData (data : CellData)
  | infoNotFound
  | modByZero
  | expectFailed (msg : String)
  | oldestLatestNotFound
  | capacityOverflow
deriving DecidableEq

/-- Result of a computation that can abort the process (Rust panic). -/
inductive AsmResult (α : Type) where
  | ok (val : α)
  | fatal (msg : PanicMsg)
deriving DecidableEq

/-- Result of a fallible query: a value or a recoverable Error. -/
inductive QResult (α : Type) where
  | ok (val : α)
  | err
deriving DecidableEq

/-- Result of fetch_update_cells: Ok(None), Ok(Some cells), a recoverable
Error propagated from the ledger search, or a panic. -/
inductive FetchResult where
  | ok (result : Option UpdateCells)
  | err
  | fatal (msg : PanicMsg)
deriving DecidableEq

/-- True exactly on the panic outcome. -/
def FetchResult.isFatal : FetchResult → Bool
  | FetchResult.fatal _ => true
  | _ => false

/-- The classification loop of fetch_update_cells (assembler.rs lines
97 to 114): each cell is pushed to client_cells if PackedClientReader
accepts it, otherwise recorded as the info cell if PackedClientInfoReader
accepts it (panicking with both payloads if an info cell was already
recorded), otherwise the data is invalid and the process panics. -/
def classifyCells : List LiveCell → List LiveCell → Option LiveCell →
    AsmResult (List LiveCell × Option LiveCell)
  | [], clients, infoOpt => AsmResult.ok (clients, infoOpt)
  | c :: rest, clients, infoOpt =>
    if c.outputData.clientOk then
      classifyCells rest (clients ++ [c]) infoOpt
    else if c.outputData.infoOk then
      match infoOpt with
      | some prev => AsmResult.fatal (PanicMsg.duplicateInfo prev.outputData c.outputData)
      | none => classifyCells rest clients (some c)
    else
      AsmResult.fatal (PanicMsg.invalidData c.outputData)

/-- The oldest/latest selection loop of fetch_update_cells (assembler.rs
lines 127 to 135).  The source runs latest.replace(cell).expect(..) and
oldest.replace(cell).expect(..): Option::replace stores the new cell and
returns the PREVIOUS value, so expect panics when the slot was previously
empty, i.e. on the FIRST cell whose id matches. -/
def findOldestLatest (latestId oldestId : Nat) :
    List LiveCell → Option LiveCell → Option LiveCell →
    AsmResult (Option LiveCell × Option LiveCell)
  | [], oldest, latest => AsmResult.ok (oldest, latest)
  | c :: rest, oldest, latest =>
    if c.outputData.clientId = latestId then
      match latest with
      | none => AsmResult.fatal (PanicMsg.expectFailed "on-chain data corrupted")
      | some _ => findOldestLatest latestId oldestId rest oldest (some c)
    else if c.outputData.clientId = oldestId then
      match oldest with
      | none => AsmResult.fatal (PanicMsg.expectFailed "on-chain data corrupted")
      | some _ => findOldestLatest latestId oldestId rest (some c) latest
    else
      findOldestLatest latestId oldestId rest oldest latest

/-- fetch_update_cells (assembler.rs lines 72 to 146) after a successful
ledger search returning cells: Ok(None) on zero cells; panic on a count
mismatch; classify the cells; panic when no info cell was found; compute
latest_id from the info cell and oldest_id as
(latest_id + 1) % (cells_count - 1) in u8 arithmetic (the addition wraps at
256 in release builds and the modulo panics when cells_count - 1 is zero);
run the selection loop; panic unless both oldest and latest were found. -/
def fetchUpdateCells (cellsCount : Nat) (cells : List LiveCell) : FetchResult :=
  if cells.length = 0 then
    FetchResult.ok none
  else if cells.length ≠ cellsCount then
    FetchResult.fatal (PanicMsg.countMismatch cellsCount cells.length)
  else
    match classifyCells cells [] none with
    | AsmResult.fatal m => FetchResult.fatal m
    | AsmResult.ok (clientCells, infoOpt) =>
      match infoOpt with
      | none => FetchResult.fatal PanicMsg.infoNotFound
      | some infoCell =>
        if cellsCount - 1 = 0 then
          FetchResult.fatal PanicMsg.modByZero
        else
          match findOldestLatest infoCell.outputData.infoLastId
              ((infoCell.outputData.infoLastId + 1) % 256 % (cellsCount - 1))
              clientCells none none with
          | AsmResult.fatal m => FetchResult.fatal m
          | AsmResult.ok (some oldest, some latest) =>
            FetchResult.ok (some ⟨oldest, latest, infoCell⟩)
          | AsmResult.ok _ => FetchResult.fatal PanicMsg.oldestLatestNotFound

/-- Counts an already-recorded info cell: 1 when present, else 0
(bookkeeping helper for reasoning about the classification loop). -/
def infCount : Option LiveCell → Nat
  | some _ => 1
  | none => 0

/-- fetch_update_cells including the propagation (the question-mark
operator) of a recoverable error from search_cells_by_typescript. -/
def fetchUpdateCellsFromSearch (cellsCount : Nat) :
    QResult (List LiveCell) → FetchResult
  | QResult.err => FetchResult.err
  | QResult.ok cells => fetchUpdateCells cellsCount cells

/-- A cell decodes as ClientInfo when the Client validator rejects it and
the ClientInfo validator accepts it (the validators are tried in that
order). -/
def decodesAsClientInfoB (c : LiveCell) : Bool :=
  !c.outputData.clientOk && c.outputData.infoOk

/-- A cell decodes as Client when the Client validator accepts it. -/
def decodesAsClientB (c : LiveCell) : Bool :=
  c.outputData.clientOk

/-- A cell passes neither validator. -/
def invalidDataB (c : LiveCell) : Bool :=
  !c.outputData.clientOk && !c.outputData.infoOk

/-- The validity conditions a multi-client group of size n must satisfy:
exactly n cells, exactly one decoding as ClientInfo with last_id below
n - 1, all others decoding as Client with pairwise distinct ids in
the range 0 to n - 2. -/
def isValidMultiClientGroup (n : Nat) (cells : List LiveCell) : Bool :=
  (cells.length == n) &&
  (cells.countP decodesAsClientInfoB == 1) &&
  cells.all (fun c => decodesAsClientInfoB c || decodesAsClientB c) &&
  cells.all (fun c => !decodesAsClientInfoB c || decide (c.outputData.infoLastId < n - 1)) &&
  decide (((cells.filter decodesAsClientB).map (fun c => c.outputData.clientId)).Nodup) &&
  (cells.filter decodesAsClientB).all (fun c => decide (c.outputData.clientId < n - 1))

/-- ckb_types packed CellDep with DepType::Code (the dep type is the same
constant for every dep built here and is omitted). -/
structure CellDep where
  outPoint : OutPoint
deriving DecidableEq

/-- A witness: the assembler builds WitnessArgs with the proof update in the
input_type slot; the proof update blob is abstracted to a natural. -/
structure Witness where
  inputType : Option Nat
deriving DecidableEq

/-- The draft transaction built by the assemblers before fee balancing:
inputs, outputs, output data, witnesses and cell deps. -/
structure Draft where
  inputs : List CellInput
  outputs : List CellOutput
  outputsData : List CellData
  witnesses : List Witness
  cellDeps : List CellDep
deriving DecidableEq

/-- Minimal exact-fit capacity in shannons of an output cell:
Capacity::bytes of (8-byte capacity field + data length + occupied size of
the lock script + occupied size of the type script), one byte being
100000000 shannons. -/
def exactCapacity (lock : Script) (t : Option Script) (dataLen : Nat) : Nat :=
  (8 + dataLen + lock.occupiedBytes + typeOccupiedBytes t) * 100000000

/-- CellOutput::new_builder()..build_exact_capacity(Capacity::bytes(len))
with the surrounding unwrap and expect: produces the output whose capacity
is the minimal exact-fit capacity, or panics when the u64 capacity
arithmetic overflows. -/
def buildExactCapacity (lock : Script) (t : Option Script) (dataLen : Nat) :
    AsmResult CellOutput :=
  if exactCapacity lock t dataLen < 2 ^ 64 then
    AsmResult.ok ⟨exactCapacity lock t dataLen, lock, t⟩
  else
    AsmResult.fatal PanicMsg.capacityOverflow

/-- The outputs_data.iter().map(.. build_exact_capacity ..).collect loop of
assemble_create_multi_client_transaction: one output per payload, aborting
at the first capacity failure. -/
def buildOutputs (lock : Script) (t : Option Script) :
    List CellData → AsmResult (List CellOutput)
  | [] => AsmResult.ok []
  | d :: rest =>
    match buildExactCapacity lock t d.len with
    | AsmResult.fatal m => AsmResult.fatal m
    | AsmResult.ok o =>
      match buildOutputs lock t rest with
      | AsmResult.fatal m => AsmResult.fatal m
      | AsmResult.ok os => AsmResult.ok (o :: os)

/-- assemble_update_multi_client_transaction (assembler.rs lines 278 to
387) up to the draft handed to the completion port, with the two contract
cell searches already resolved (contractCell, lockCell).  Returns the draft
and the inputs re-expressed as cell outputs. -/
def assembleUpdateMultiClientTransaction
    (oldestCell infoCell : LiveCell) (updatedClient : CellData)
    (clientTypeArgs : ClientTypeArgs)
    (lockTypeidArgs contractTypeidArgs : List Nat)
    (proofUpdate : Nat) (contractCell lockCell : LiveCell) :
    AsmResult (Draft × List CellOutput) :=
  let contractScriptHash := calcScriptHash (makeTypeidScript contractTypeidArgs)
  let lockScript := makeTypeidScript lockTypeidArgs
  let typeScript : Script :=
    ⟨contractScriptHash, HashType.typeHash,
      ScriptArgs.clientTypeArgs clientTypeArgs.cellsCount clientTypeArgs.typeId⟩
  let lastId := oldestCell.outputData.clientId
  let newInfoData := setLastId infoCell.outputData lastId
  match buildExactCapacity lockScript (some typeScript) newInfoData.len with
  | AsmResult.fatal m => AsmResult.fatal m
  | AsmResult.ok newInfoOutput =>
    match buildExactCapacity lockScript (some typeScript) updatedClient.len with
    | AsmResult.fatal m => AsmResult.fatal m
    | AsmResult.ok newClientOutput =>
      AsmResult.ok
        (⟨[⟨oldestCell.outPoint, 0⟩, ⟨infoCell.outPoint, 0⟩],
          [newInfoOutput, newClientOutput],
          [newInfoData, updatedClient],
          [⟨some proofUpdate⟩],
          [⟨contractCell.outPoint⟩, ⟨lockCell.outPoint⟩]⟩,
         [oldestCell.output, infoCell.output])

/-- assemble_create_multi_client_transaction (assembler.rs lines 170 to
276) up to the draft handed to the completion port, with the contract and
lock cell searches and the funding-input search already resolved.
cells_count is (clients.len() + 1) as u8 (wrapping at 256); the first
funding input must exist or the expect panics; the type script args are the
ClientTypeArgs of cells_count and the type id calculated from the first
input and cells_count. -/
def assembleCreateMultiClientTransaction
    (clients : List CellData) (clientInfo : CellData)
    (lockTypeidArgs contractTypeidArgs : List Nat)
    (proofUpdate : Nat) (contractCell lockCell : LiveCell)
    (inputCells : List LiveCell) :
    AsmResult (Draft × List CellOutput) :=
  let cellsCount := (clients.length + 1) % 256
  let contractScriptHash := calcScriptHash (makeTypeidScript contractTypeidArgs)
  let lockScript := makeTypeidScript lockTypeidArgs
  let inputs := inputCells.map (fun c => (⟨c.outPoint, 0⟩ : CellInput))
  match inputs.head? with
  | none => AsmResult.fatal (PanicMsg.expectFailed "input cell not found")
  | some firstInput =>
    let typeId := TypeId.fromInput firstInput cellsCount
    let typeScript : Script :=
      ⟨contractScriptHash, HashType.typeHash,
        ScriptArgs.clientTypeArgs cellsCount typeId⟩
    let outputsData := clientInfo :: clients
    match buildOutputs lockScript (some typeScript) outputsData with
    | AsmResult.fatal m => AsmResult.fatal m
    | AsmResult.ok outputs =>
      AsmResult.ok
        (⟨inputs, outputs, outputsData,
          [⟨some proofUpdate⟩],
          [⟨contractCell.outPoint⟩, ⟨lockCell.outPoint⟩]⟩,
         inputCells.map (fun c => c.output))

/-- assemble_updates_into_transaction (assembler.rs lines 389 to 468), the
single-client upsert, up to the draft handed to the completion port, with
the contract and mock-lock searches and the light-client cell search
already resolved.  addressArgs are the pubkey-hash args of the funding
address payload, clientId the client id string bytes. -/
def assembleUpdatesIntoTransaction
    (packedClient : CellData) (proofUpdate : Nat)
    (lockTypeidArgs contractTypeidArgs : List Nat)
    (clientId addressArgs : List Nat)
    (contractCell mockLockCell : LiveCell)
    (lightclientCellOpt : Option LiveCell) :
    AsmResult (Draft × List CellOutput) :=
  let contractTypescript := makeTypeidScript contractTypeidArgs
  let mockLockscript := makeTypeidScript lockTypeidArgs
  let contractTypehash := calcScriptHash contractTypescript
  let lightclientLock := makeLightclientScript (calcScriptHash mockLockscript) addressArgs
  let lightclientType := makeLightclientScript contractTypehash clientId
  match buildExactCapacity lightclientLock (some lightclientType) packedClient.len with
  | AsmResult.fatal m => AsmResult.fatal m
  | AsmResult.ok outputCell =>
    let inputsCell :=
      match lightclientCellOpt with
      | some c => [(⟨c.outPoint, 0⟩ : CellInput)]
      | none => []
    let inputsCellAsOutput :=
      match lightclientCellOpt with
      | some c => [c.output]
      | none => []
    AsmResult.ok
      (⟨inputsCell, [outputCell], [packedClient],
        [⟨some proofUpdate⟩],
        [⟨contractCell.outPoint⟩, ⟨mockLockCell.outPoint⟩]⟩,
       inputsCellAsOutput)

/-- The four process-local caches of Ckb4IbcChain (ckb4ibc.rs lines 119 to
122), with identifiers abstracted to naturals: channel input data keyed by
(channel id, port id); channel cache keyed by channel id; packet input data
keyed by (channel id, port id, sequence); the connection cache holding at
most one (connections, cell input) pair. -/
structure Caches where
  channelInputData : List ((Nat × Nat) × CellInput)
  channelCache : List (Nat × Nat)
  packetInputData : List ((Nat × Nat × Nat) × CellInput)
  connectionCache : Option (Nat × CellInput)
deriving DecidableEq

/-- The all-empty cache state. -/
def emptyCaches : Caches := ⟨[], [], [], none⟩

/-- clear_cache (ckb4ibc.rs lines 333 to 344): clears all three maps and
resets the connection cache to None. -/
def clearCache (_ : Caches) : Caches := emptyCaches

/-- HashMap::insert on an association-list model: the new binding shadows
and removes any previous binding of the same key. -/
def insertA {κ α : Type} [DecidableEq κ] (m : List (κ × α)) (k : κ) (v : α) :
    List (κ × α) :=
  (k, v) :: m.filter (fun p => decide (p.1 ≠ k))

/-- The data extracted by a successful fetch_channel_cell_and_extract run:
the identified channel (channel id, port id), the returned ChannelEnd
payload, the IbcChannel payload and the spendable cell input. -/
structure ChannelFetched where
  channelId : Nat
  portId : Nat
  channelEnd : Nat
  ibcChannel : Nat
  cellInput : CellInput
deriving DecidableEq

/-- fetch_channel_cell_and_extract (ckb4ibc.rs lines 263 to 331): the
ledger interaction for one open-flag variant is the oracle env; on success
the channel input data and channel cache are populated under the extracted
identifiers and the channel end is returned; any failure in the chain of
queries is a recoverable error that leaves the caches untouched. -/
def fetchChannelCellAndExtract (env : Bool → Option ChannelFetched)
    (isOpen : Bool) (st : Caches) : QResult (Nat × Caches) :=
  match env isOpen with
  | none => QResult.err
  | some f =>
    QResult.ok (f.channelEnd,
      { st with
        channelInputData := insertA st.channelInputData (f.channelId, f.portId) f.cellInput,
        channelCache := insertA st.channelCache f.channelId f.ibcChannel })

/-- query_channel (ckb4ibc.rs lines 874 to 890): try the not-open variant
first; only if it fails, try the open variant, propagating its error.  The
third component records which variants were looked up, in order. -/
def queryChannel (env : Bool → Option ChannelFetched) (st : Caches) :
    QResult Nat × Caches × List Bool :=
  match fetchChannelCellAndExtract env false st with
  | QResult.ok (r, st1) => (QResult.ok r, st1, [false])
  | QResult.err =>
    match fetchChannelCellAndExtract env true st with
    | QResult.ok (r, st1) => (QResult.ok r, st1, [false, true])
    | QResult.err => (QResult.err, st, [false, true])

/-- ckb_ics_axon PacketStatus. -/
inductive PacketStatus where
  | Send
  | Recv
  | InboxAck
  | OutboxAck
deriving DecidableEq

/-- The packet fields used by the queries: sequence and source port bytes. -/
structure Packet where
  sequence : Nat
  sourcePortId : List Nat
deriving DecidableEq

/-- ckb_ics_axon IbcPacket: the packet and its status. -/
structure IbcPacket where
  packet : Packet
  status : PacketStatus
deriving DecidableEq

/-- ckb_ics_axon PacketArgs. -/
structure PacketArgs where
  channelId : Nat
  portId : List Nat
  sequence : Nat
  owner : List Nat
deriving DecidableEq

/-- Abstract model of the external PacketArgs::get_search_args encoder:
a byte string determined by channel id, sequence and port id. -/
def PacketArgs.getSearchArgs (a : PacketArgs) : List Nat :=
  a.channelId :: a.sequence :: a.portId

/-- query_packet_commitment (ckb4ibc.rs lines 899 to 928) given the
outcome of fetch_packet_cell_and_extract: errors propagate; a packet whose
status is not Send yields Ok with an empty payload; a Send packet yields
its search args. -/
def queryPacketCommitment (fetchResult : QResult (IbcPacket × CellInput))
    (channelId : Nat) : QResult (List Nat) :=
  match fetchResult with
  | QResult.err => QResult.err
  | QResult.ok (p, _) =>
    if p.status ≠ PacketStatus.Send then
      QResult.ok []
    else
      QResult.ok (PacketArgs.getSearchArgs ⟨channelId, p.packet.sourcePortId, p.packet.sequence, []⟩)

/-- query_packet_acknowledgements (ckb4ibc.rs lines 992 to 1006): each
requested sequence is fetched; failed fetches are dropped by flat_map;
surviving packets are filtered to status InboxAck and mapped to their own
sequence numbers.  The call never returns an error. -/
def queryPacketAcknowledgements (fetch : Nat → Option (IbcPacket × CellInput))
    (seqs : List Nat) : QResult (List Nat) :=
  QResult.ok
    (((seqs.filterMap fetch).filter
        (fun pc => decide (pc.1.status = PacketStatus.InboxAck))).map
      (fun pc => pc.1.packet.sequence))

/-- The iterator pipeline of query_unreceived_acknowledgements: fetch each
sequence (dropping failures), keep status Send, record the cell input in
the packet input data under (channel, port, packet sequence) and yield the
packet sequence. -/
def unreceivedAcksGo (fetch : Nat → Option (IbcPacket × CellInput))
    (chan port : Nat) :
    List Nat → List ((Nat × Nat × Nat) × CellInput) →
    List Nat × List ((Nat × Nat × Nat) × CellInput)
  | [], data => ([], data)
  | s :: rest, data =>
    match fetch s with
    | none => unreceivedAcksGo fetch chan port rest data
    | some (p, ci) =>
      if p.status = PacketStatus.Send then
        let sq := p.packet.sequence
        let r := unreceivedAcksGo fetch chan port rest (insertA data (chan, port, sq) ci)
        (sq :: r.1, r.2)
      else
        unreceivedAcksGo fetch chan port rest data

/-- query_unreceived_acknowledgements (ckb4ibc.rs lines 1008 to 1027):
runs the pipeline against the packet input data cache and returns the
collected sequences; never an error. -/
def queryUnreceivedAcknowledgements (fetch : Nat → Option (IbcPacket × CellInput))
    (chan port : Nat) (seqs : List Nat) (st : Caches) :
    QResult (List Nat) × Caches :=
  let r := unreceivedAcksGo fetch chan port seqs st.packetInputData
  (QResult.ok r.1, { st with packetInputData := r.2 })

/-- Outcome of convert_msg_to_ckb_tx plus the per-message completion step
for one tracked message: a conversion error (propagated by the
question-mark operator), no transaction (with an optional event pushed
directly to the results), or a transaction whose completion either
succeeded or failed (a failed completion is silently skipped). -/
inductive ConvOutcome where
  | convErr
  | noTx (ev : Option Nat)
  | withTx (completeOk : Bool) (ev : Option Nat)
deriving DecidableEq

/-- The oracle environment of one send_messages_and_wait_commit run:
the connection query outcome used by get_converter when the connection
cache is empty (None models the query failing, which the source unwraps
into a panic), the per-message outcomes, whether the key/network lookups
succeed, and the per-transaction commit outcome. -/
structure SendEnv where
  connQuery : Option (Nat × CellInput)
  msgs : List ConvOutcome
  keyOk : Bool
  submit : Nat → Bool

/-- The message loop of send_messages_and_wait_commit: a conversion error
returns Err immediately; a no-transaction message contributes its event to
result_events; a completed transaction requires the key lookup to succeed
(else Err) and contributes its optional event to the submission list. -/
def processMsgs : List ConvOutcome → Bool → QResult (List (Option Nat) × List Nat)
  | [], _ => QResult.ok ([], [])
  | ConvOutcome.convErr :: _, _ => QResult.err
  | ConvOutcome.noTx ev :: rest, keyOk =>
    match processMsgs rest keyOk with
    | QResult.err => QResult.err
    | QResult.ok (txEvs, resEvs) => QResult.ok (txEvs, ev.toList ++ resEvs)
  | ConvOutcome.withTx completeOk ev :: rest, keyOk =>
    if completeOk then
      if keyOk then
        match processMsgs rest keyOk with
        | QResult.err => QResult.err
        | QResult.ok (txEvs, resEvs) => QResult.ok (ev :: txEvs, resEvs)
      else QResult.err
    else processMsgs rest keyOk

/-- The submission loop of send_messages_and_wait_commit: transactions are
submitted in order; the first commit failure returns Err; on full success
the events of the committed transactions are collected in order. -/
def submitAll : List (Option Nat) → Nat → (Nat → Bool) → QResult (List Nat)
  | [], _, _ => QResult.ok []
  | ev :: rest, i, submit =>
    if submit i then
      match submitAll rest (i + 1) submit with
      | QResult.err => QResult.err
      | QResult.ok l => QResult.ok (ev.toList ++ l)
    else QResult.err

/-- send_messages_and_wait_commit (ckb4ibc.rs lines 560 to 655) over the
cache state: get_converter populates the connection cache when it is empty
(panicking, modelled as none, if that query fails); the message loop and
the submission loop each return Err early WITHOUT clearing the caches;
only the full-success path runs clear_cache before returning Ok. -/
def sendMessagesAndWaitCommit (env : SendEnv) (st : Caches) :
    Option (QResult (List Nat) × Caches) :=
  match
    (if st.connectionCache.isNone then
      Option.map (fun cv => { st with connectionCache := some cv }) env.connQuery
    else some st) with
  | none => none
  | some st1 =>
    match processMsgs env.msgs env.keyOk with
    | QResult.err => some (QResult.err, st1)
    | QResult.ok (txEvs, resEvs) =>
      match submitAll txEvs 0 env.submit with
      | QResult.err => some (QResult.err, st1)
      | QResult.ok commitEvs => some (QResult.ok (resEvs ++ commitEvs), clearCache st1)

/-! Concrete instances used by the closed evaluation theorems below. -/

/-- An empty-args type-id lock script. -/
def lockScriptEx : Script := makeTypeidScript []

/-- The script hash of the contract type-id script with args [2]. -/
def contractHashEx : Hash32 := calcScriptHash (makeTypeidScript [2])

/-- A concrete ClientTypeArgs for a group of two cells. -/
def ctaEx : ClientTypeArgs := ⟨2, TypeId.raw [9]⟩

/-- The type script the update assembler builds from ctaEx. -/
def typeScriptEx : Script :=
  ⟨contractHashEx, HashType.typeHash, ScriptArgs.clientTypeArgs 2 (TypeId.raw [9])⟩

/-- A ClientInfo payload with last_id 0, 3 bytes long. -/
def dataInfoEx : CellData := ⟨false, true, 0, 0, 3⟩

/-- A Client payload with id 0, 4 bytes long. -/
def dataClientEx : CellData := ⟨true, false, 0, 0, 4⟩

/-- An updated Client payload with id 0, 5 bytes long. -/
def dataClientUpdEx : CellData := ⟨true, false, 0, 0, 5⟩

/-- The on-chain ClientInfo cell of the two-cell example group. -/
def cellInfoEx : LiveCell := ⟨⟨10, 0⟩, ⟨500, lockScriptEx, some typeScriptEx⟩, dataInfoEx⟩

/-- The on-chain Client cell of the two-cell example group. -/
def cellClientEx : LiveCell := ⟨⟨11, 0⟩, ⟨600, lockScriptEx, some typeScriptEx⟩, dataClientEx⟩

/-- A second ClientInfo cell (for the duplicate-info scenario). -/
def cellInfoDupEx : LiveCell := ⟨⟨12, 0⟩, ⟨500, lockScriptEx, some typeScriptEx⟩, ⟨false, true, 0, 1, 3⟩⟩

/-- A resolved contract code cell. -/
def contractCellEx : LiveCell := ⟨⟨20, 0⟩, ⟨700, lockScriptEx, none⟩, ⟨false, false, 0, 0, 1⟩⟩

/-- A resolved lock code cell. -/
def lockCellEx : LiveCell := ⟨⟨21, 0⟩, ⟨800, lockScriptEx, none⟩, ⟨false, false, 0, 0, 1⟩⟩

/-- A funding input cell for the create assembler. -/
def fundingCellEx : LiveCell := ⟨⟨30, 0⟩, ⟨900, lockScriptEx, none⟩, ⟨false, false, 0, 0, 1⟩⟩

/-- The draft the update assembler builds from the example group. -/
def draftUpdEx : Draft :=
  ⟨[⟨⟨11, 0⟩, 0⟩, ⟨⟨10, 0⟩, 0⟩],
   [⟨11000000000, lockScriptEx, some typeScriptEx⟩,
    ⟨11200000000, lockScriptEx, some typeScriptEx⟩],
   [dataInfoEx, dataClientUpdEx],
   [⟨some 0⟩],
   [⟨⟨20, 0⟩⟩, ⟨⟨21, 0⟩⟩]⟩

/-- The inputs-as-outputs list of the example update draft. -/
def inputsUpdEx : List CellOutput :=
  [⟨600, lockScriptEx, some typeScriptEx⟩, ⟨500, lockScriptEx, some typeScriptEx⟩]

/-- The type script the create assembler derives from fundingCellEx and
output count 2. -/
def typeScriptCrEx : Script :=
  ⟨contractHashEx, HashType.typeHash,
   ScriptArgs.clientTypeArgs 2 (TypeId.fromInput ⟨⟨30, 0⟩, 0⟩ 2)⟩

/-- The draft the create assembler builds from one client record. -/
def draftCrEx : Draft :=
  ⟨[⟨⟨30, 0⟩, 0⟩],
   [⟨11000000000, lockScriptEx, some typeScriptCrEx⟩,
    ⟨11100000000, lockScriptEx, some typeScriptCrEx⟩],
   [dataInfoEx, dataClientEx],
   [⟨some 0⟩],
   [⟨⟨20, 0⟩⟩, ⟨⟨21, 0⟩⟩]⟩

/-- The lock script of the single-client example output. -/
def lightLockEx : Script := makeLightclientScript (calcScriptHash lockScriptEx) [8]

/-- The type script of the single-client example output. -/
def lightTypeEx : Script := makeLightclientScript contractHashEx [7]

/-- The draft the single-client assembler builds in the example. -/
def draftSgEx : Draft :=
  ⟨[⟨⟨11, 0⟩, 0⟩],
   [⟨8100000000, lightLockEx, some lightTypeEx⟩],
   [dataClientUpdEx],
   [⟨some 0⟩],
   [⟨⟨20, 0⟩⟩, ⟨⟨21, 0⟩⟩]⟩

/-- A concrete cell input for the cache examples. -/
def ciEx : CellInput := ⟨⟨40, 0⟩, 0⟩

/-- A send environment whose single message fails conversion. -/
def envErrEx : SendEnv := ⟨some (7, ciEx), [ConvOutcome.convErr], true, fun _ => true⟩

/-- A send environment with no messages (everything succeeds). -/
def envOkEx : SendEnv := ⟨some (7, ciEx), [], true, fun _ => true⟩

/-- A concrete successful channel fetch. -/
def chanFEx : ChannelFetched := ⟨3, 4, 55, 66, ciEx⟩

/-- A channel environment where only the not-open variant succeeds. -/
def envChanA : Bool → Option ChannelFetched := fun b => if b then none else some chanFEx

/-- A channel environment where only the open variant succeeds. -/
def envChanB : Bool → Option ChannelFetched := fun b => if b then some chanFEx else none

/-- A concrete packet with status Recv. -/
def pktRecvEx : IbcPacket := ⟨⟨5, [1, 2]⟩, PacketStatus.Recv⟩

/-- A concrete packet with status Send and sequence 1. -/
def pktSendEx : IbcPacket := ⟨⟨1, [1]⟩, PacketStatus.Send⟩

/-- A packet fetch oracle succeeding only on sequence 1. -/
def fetchPktEx : Nat → Option (IbcPacket × CellInput) :=
  fun s => if s = 1 then some (pktSendEx, ciEx) else none

/-! Helper lemmas about fetch_update_cells. -/

/-- The selection loop started with latest = None can never return Ok with
a Some latest: the first cell matching latest_id trips the inverted
replace/expect check. -/
theorem findOldestLatest_ok_latest_none (lId oId : Nat) :
    ∀ (cs : List LiveCell) (o oldv : Option LiveCell) (b : LiveCell),
      findOldestLatest lId oId cs o none ≠ AsmResult.ok (oldv, some b) := by
  intro cs
  induction cs with
  | nil =>
    intro o oldv b h
    simp only [findOldestLatest] at h
    injection h with h1
    injection h1 with h2 h3
    exact Option.noConfusion h3
  | cons c rest ih =>
    intro o oldv b h
    simp only [findOldestLatest] at h
    split at h
    · exact AsmResult.noConfusion h
    · split at h
      · cases o with
        | none => exact AsmResult.noConfusion h
        | some oc => exact ih _ _ _ h
      · exact ih _ _ _ h

/-- Every panic of the selection loop carries the replace/expect message. -/
theorem findOldestLatest_fatal_msg (lId oId : Nat) :
    ∀ (cs : List LiveCell) (o l : Option LiveCell) (m : PanicMsg),
      findOldestLatest lId oId cs o l = AsmResult.fatal m →
      m = PanicMsg.expectFailed "on-chain data corrupted" := by
  intro cs
  induction cs with
  | nil =>
    intro o l m h
    simp only [findOldestLatest] at h
    exact AsmResult.noConfusion h
  | cons c rest ih =>
    intro o l m h
    simp only [findOldestLatest] at h
    split at h
    · cases l with
      | none =>
        injection h with h1
        exact h1.symm
      | some lc => exact ih _ _ _ h
    · split at h
      · cases o with
        | none =>
          injection h with h1
          exact h1.symm
        | some oc => exact ih _ _ _ h
      · exact ih _ _ _ h

/-- On any nonempty cell list fetch_update_cells panics: even a fully valid
group trips the inverted replace/expect check, and every invalid group hits
one of the explicit panics. -/
theorem fetch_fatal_of_ne_nil (n : Nat) (cells : List LiveCell) (h : cells ≠ []) :
    (fetchUpdateCells n cells).isFatal = true := by
  unfold fetchUpdateCells
  split
  · next hlen => exact absurd (List.length_eq_zero.mp hlen) h
  · split
    · rfl
    · split
      · rfl
      · split
        · rfl
        · split
          · rfl
          · split
            · rfl
            · next heq => exact absurd heq (findOldestLatest_ok_latest_none _ _ _ _ _ _)
            · rfl

/-- A duplicate-info panic of the classification loop names the data of two
info-decoding cells of the list (or the already-recorded info cell). -/
theorem classifyCells_dup_sound :
    ∀ (cs acc : List LiveCell) (inf : Option LiveCell) (a b : CellData),
      classifyCells cs acc inf = AsmResult.fatal (PanicMsg.duplicateInfo a b) →
      ((∃ p, inf = some p ∧ p.outputData = a) ∨
        ∃ x, x ∈ cs ∧ decodesAsClientInfoB x = true ∧ x.outputData = a) ∧
      (∃ y, y ∈ cs ∧ decodesAsClientInfoB y = true ∧ y.outputData = b) := by
  intro cs
  induction cs with
  | nil =>
    intro acc inf a b h
    simp only [classifyCells] at h
    exact AsmResult.noConfusion h
  | cons c rest ih =>
    intro acc inf a b h
    simp only [classifyCells] at h
    split at h
    · obtain ⟨ha, y, hy, hdy, hby⟩ := ih _ _ _ _ h
      refine ⟨?_, y, List.mem_cons_of_mem _ hy, hdy, hby⟩
      rcases ha with h1 | ⟨x, hx, hdx, hax⟩
      · exact Or.inl h1
      · exact Or.inr ⟨x, List.mem_cons_of_mem _ hx, hdx, hax⟩
    · split at h
      · next hc hi =>
        cases inf with
        | some prev =>
          injection h with h1
          injection h1 with h2 h3
          have hdec : decodesAsClientInfoB c = true := by
            simp [decodesAsClientInfoB, Bool.not_eq_true] at hc ⊢
            exact ⟨hc, hi⟩
          exact ⟨Or.inl ⟨prev, rfl, h2⟩, c, List.mem_cons_self _ _, hdec, h3⟩
        | none =>
          obtain ⟨ha, y, hy, hdy, hby⟩ := ih _ _ _ _ h
          have hdec : decodesAsClientInfoB c = true := by
            simp [decodesAsClientInfoB, Bool.not_eq_true] at hc ⊢
            exact ⟨hc, hi⟩
          refine ⟨?_, y, List.mem_cons_of_mem _ hy, hdy, hby⟩
          rcases ha with ⟨p, hp, hpa⟩ | ⟨x, hx, hdx, hax⟩
          · injection hp with hp1
            exact Or.inr ⟨c, List.mem_cons_self _ _, hdec, hp1 ▸ hpa⟩
          · exact Or.inr ⟨x, List.mem_cons_of_mem _ hx, hdx, hax⟩
      · injection h with h1
        exact PanicMsg.noConfusion h1

/-- When every cell passes one of the validators and at least two of them
(counting an already-recorded info cell) decode as info, the classification
loop panics with a duplicate-info diagnostic. -/
theorem classifyCells_dup_exists :
    ∀ (cs acc : List LiveCell) (inf : Option LiveCell),
      (∀ x ∈ cs, invalidDataB x = false) →
      2 ≤ cs.countP decodesAsClientInfoB + infCount inf →
      ∃ a b, classifyCells cs acc inf = AsmResult.fatal (PanicMsg.duplicateInfo a b) := by
  intro cs
  induction cs with
  | nil =>
    intro acc inf hval hcount
    cases inf with
    | none =>
      simp only [List.countP_nil, infCount] at hcount
      omega
    | some p =>
      simp only [List.countP_nil, infCount] at hcount
      omega
  | cons c rest ih =>
    intro acc inf hval hcount
    cases hc : c.outputData.clientOk with
    | true =>
      have hdec : decodesAsClientInfoB c = false := by
        simp [decodesAsClientInfoB, hc]
      simp [classifyCells, hc]
      refine ih _ _ (fun x hx => hval x (List.mem_cons_of_mem _ hx)) ?_
      rw [List.countP_cons, hdec] at hcount
      simpa using hcount
    | false =>
      cases hi : c.outputData.infoOk with
      | false =>
        have : invalidDataB c = true := by simp [invalidDataB, hc, hi]
        have := hval c (List.mem_cons_self _ _)
        simp_all
      | true =>
        have hdec : decodesAsClientInfoB c = true := by
          simp [decodesAsClientInfoB, hc, hi]
        simp only [classifyCells, hc, hi]
        cases inf with
        | some prev => exact ⟨prev.outputData, c.outputData, by simp⟩
        | none =>
          have hrest : 2 ≤ rest.countP decodesAsClientInfoB + infCount (some c) := by
            rw [List.countP_cons, hdec] at hcount
            simp [infCount] at hcount ⊢
            exact hcount
          simpa using ih _ _ (fun x hx => hval x (List.mem_cons_of_mem _ hx)) hrest

/-- Claim C1 (code bug): on a fully valid multi-client group — here the
boundary group of size 2, one ClientInfo cell with last_id 0 and one Client
cell with id 0 — fetch_update_cells does not return the oldest/latest/info
triple; it panics at latest.replace(cell).expect("on-chain data corrupted")
because Option::replace returns the previous value, which is None on the
first matching cell. -/
theorem fetch_update_cells_valid_group_aborts :
    isValidMultiClientGroup 2 [cellInfoEx, cellClientEx] = true ∧
    fetchUpdateCells 2 [cellInfoEx, cellClientEx] =
      FetchResult.fatal (PanicMsg.expectFailed "on-chain data corrupted") := by
  decide

/-- Claim C3: fetch_update_cells returns Ok(None) exactly when the search
yielded zero cells; a nonzero count mismatch, a cell passing neither
validator, the absence of any info-decoding cell, and duplicate info cells
all end in a panic rather than a recoverable error; a duplicate-info panic
names both offending cells' data, and on a group whose cells all pass a
validator with at least two decoding as info the duplicate-info panic is
reached. -/
theorem fetch_update_cells_error_policy (n : Nat) (cells : List LiveCell) :
    (fetchUpdateCells n cells = FetchResult.ok none ↔ cells = []) ∧
    (cells ≠ [] → cells.length ≠ n → (fetchUpdateCells n cells).isFatal = true) ∧
    (cells.length = n → (∃ x, x ∈ cells ∧ invalidDataB x = true) →
      (fetchUpdateCells n cells).isFatal = true) ∧
    (cells ≠ [] → (∀ x ∈ cells, decodesAsClientInfoB x = false) →
      (fetchUpdateCells n cells).isFatal = true) ∧
    (∀ a b, fetchUpdateCells n cells = FetchResult.fatal (PanicMsg.duplicateInfo a b) →
      (∃ x, x ∈ cells ∧ decodesAsClientInfoB x = true ∧ x.outputData = a) ∧
      (∃ y, y ∈ cells ∧ decodesAsClientInfoB y = true ∧ y.outputData = b)) ∧
    (cells.length = n → (∀ x ∈ cells, invalidDataB x = false) →
      2 ≤ cells.countP decodesAsClientInfoB →
      ∃ a b, fetchUpdateCells n cells = FetchResult.fatal (PanicMsg.duplicateInfo a b)) := by
  refine ⟨⟨?_, ?_⟩, ?_, ?_, ?_, ?_, ?_⟩
  · intro h
    by_contra hne
    have := fetch_fatal_of_ne_nil n cells hne
    rw [h] at this
    exact Bool.noConfusion this
  · intro h
    subst h
    simp [fetchUpdateCells]
  · intro hne _
    exact fetch_fatal_of_ne_nil n cells hne
  · intro _ hmem
    obtain ⟨x, hx, _⟩ := hmem
    exact fetch_fatal_of_ne_nil n cells (List.ne_nil_of_mem hx)
  · intro hne _
    exact fetch_fatal_of_ne_nil n cells hne
  · intro a b h
    have hcl : classifyCells cells [] none = AsmResult.fatal (PanicMsg.duplicateInfo a b) := by
      unfold fetchUpdateCells at h
      split at h
      · exact absurd h (by simp)
      · split at h
        · injection h with h1
          exact absurd h1 (by simp)
        · split at h
          · next heq =>
            injection h with h1
            rw [h1] at heq
            exact heq
          · split at h
            · injection h with h1
              exact absurd h1 (by simp)
            · split at h
              · injection h with h1
                exact absurd h1 (by simp)
              · split at h
                · next heq =>
                  injection h with h1
                  have := findOldestLatest_fatal_msg _ _ _ _ _ _ heq
                  rw [this] at h1
                  exact absurd h1 (by simp)
                · exact FetchResult.noConfusion h
                · injection h with h1
                  exact absurd h1 (by simp)
    have hsound := classifyCells_dup_sound cells [] none a b hcl
    obtain ⟨ha, hb⟩ := hsound
    refine ⟨?_, hb⟩
    rcases ha with ⟨p, hp, _⟩ | hx
    · exact Option.noConfusion hp
    · exact hx
  · intro hlen hval hcount
    subst hlen
    obtain ⟨a, b, hcl⟩ :=
      classifyCells_dup_exists cells [] none hval (by simpa [infCount] using hcount)
    refine ⟨a, b, ?_⟩
    have hne : cells ≠ [] := by
      intro hnil
      subst hnil
      rw [List.countP_nil] at hcount
      omega
    have hne0 : ¬ cells.length = 0 := by
      simpa [List.length_eq_zero] using hne
    simp [fetchUpdateCells, hne0, hcl]

/-- Witness for Claim C3 at concrete groups: the empty search, a count
mismatch, an invalid payload, a client-only group, and the Scenario C
duplicate-info group of four cells. -/
theorem fetch_update_cells_error_policy_witness :
    (fetchUpdateCells 3 [] = FetchResult.ok none) ∧
    ((fetchUpdateCells 4 [cellClientEx]).isFatal = true) ∧
    ((fetchUpdateCells 1 [⟨⟨9, 0⟩, ⟨1, lockScriptEx, none⟩, ⟨false, false, 0, 0, 2⟩⟩]).isFatal = true) ∧
    ((fetchUpdateCells 1 [cellClientEx]).isFatal = true) ∧
    ((∃ x, x ∈ [cellClientEx, cellClientEx, cellInfoEx, cellInfoDupEx] ∧
        decodesAsClientInfoB x = true ∧ x.outputData = dataInfoEx) ∧
      (∃ y, y ∈ [cellClientEx, cellClientEx, cellInfoEx, cellInfoDupEx] ∧
        decodesAsClientInfoB y = true ∧ y.outputData = ⟨false, true, 0, 1, 3⟩)) ∧
    (∃ a b, fetchUpdateCells 4 [cellClientEx, cellClientEx, cellInfoEx, cellInfoDupEx] =
      FetchResult.fatal (PanicMsg.duplicateInfo a b)) :=
  ⟨(fetch_update_cells_error_policy 3 []).1.mpr rfl,
   (fetch_update_cells_error_policy 4 [cellClientEx]).2.1 (by decide) (by decide),
   (fetch_update_cells_error_policy 1
      [⟨⟨9, 0⟩, ⟨1, lockScriptEx, none⟩, ⟨false, false, 0, 0, 2⟩⟩]).2.2.1 (by decide)
      ⟨⟨⟨9, 0⟩, ⟨1, lockScriptEx, none⟩, ⟨false, false, 0, 0, 2⟩⟩, by decide, by decide⟩,
   (fetch_update_cells_error_policy 1 [cellClientEx]).2.2.2.1 (by decide) (by decide),
   (fetch_update_cells_error_policy 4
      [cellClientEx, cellClientEx, cellInfoEx, cellInfoDupEx]).2.2.2.2.1
      dataInfoEx ⟨false, true, 0, 1, 3⟩ (by decide),
   (fetch_update_cells_error_policy 4
      [cellClientEx, cellClientEx, cellInfoEx, cellInfoDupEx]).2.2.2.2.2
      (by decide) (by decide) (by decide)⟩

/-- Claim C9: for a group with cells_count 1 fetch_update_cells never
returns Ok(Some): any nonempty cell list ends in a panic, and the
degenerate single-info-cell group panics precisely at the modulo-by-zero in
(latest_id + 1) % (cells_count - 1). -/
theorem fetch_update_cells_cells_count_one (cells : List LiveCell) :
    (∀ u, fetchUpdateCells 1 cells ≠ FetchResult.ok (some u)) ∧
    (cells ≠ [] → (fetchUpdateCells 1 cells).isFatal = true) ∧
    (∀ c, cells = [c] → c.outputData.clientOk = false → c.outputData.infoOk = true →
      fetchUpdateCells 1 cells = FetchResult.fatal PanicMsg.modByZero) := by
  refine ⟨?_, fetch_fatal_of_ne_nil 1 cells, ?_⟩
  · intro u h
    by_cases hn : cells = []
    · subst hn
      simp [fetchUpdateCells] at h
    · have := fetch_fatal_of_ne_nil 1 cells hn
      rw [h] at this
      exact Bool.noConfusion this
  · intro c hc h1 h2
    subst hc
    simp [fetchUpdateCells, classifyCells, h1, h2]

/-- Witness for Claim C9: the single-info-cell group with cells_count 1. -/
theorem fetch_update_cells_cells_count_one_witness :
    ([cellInfoEx] ≠ ([] : List LiveCell) ∧
      (fetchUpdateCells 1 [cellInfoEx]).isFatal = true) ∧
    fetchUpdateCells 1 [cellInfoEx] = FetchResult.fatal PanicMsg.modByZero :=
  ⟨⟨by decide, (fetch_update_cells_cells_count_one [cellInfoEx]).2.1 (by decide)⟩,
   (fetch_update_cells_cells_count_one [cellInfoEx]).2.2 cellInfoEx rfl (by decide) (by decide)⟩

/-! Helper lemmas about the draft builders. -/

/-- A successful build_exact_capacity yields exactly the minimal-capacity
output with the supplied lock and type scripts. -/
theorem buildExactCapacity_ok (lock : Script) (t : Option Script) (n : Nat)
    (o : CellOutput) (h : buildExactCapacity lock t n = AsmResult.ok o) :
    o = ⟨exactCapacity lock t n, lock, t⟩ := by
  unfold buildExactCapacity at h
  split at h
  · injection h with h1
    exact h1.symm
  · exact AsmResult.noConfusion h

/-- A successful output-building loop is pointwise successful
build_exact_capacity calls. -/
theorem buildOutputs_ok (lock : Script) (t : Option Script) :
    ∀ (ds : List CellData) (os : List CellOutput),
      buildOutputs lock t ds = AsmResult.ok os →
      List.Forall₂ (fun d o => buildExactCapacity lock t d.len = AsmResult.ok o) ds os := by
  intro ds
  induction ds with
  | nil =>
    intro os h
    simp only [buildOutputs] at h
    injection h with h1
    rw [← h1]
    exact List.Forall₂.nil
  | cons d rest ih =>
    intro os h
    simp only [buildOutputs] at h
    split at h
    · exact AsmResult.noConfusion h
    · next o1 heq1 =>
      split at h
      · exact AsmResult.noConfusion h
      · next os1 heq2 =>
        injection h with h1
        rw [← h1]
        exact List.Forall₂.cons heq1 (ih _ heq2)

/-- Every member of the right list of a Forall₂ is related to some member
of the left list. -/
theorem forall₂_mem_right {α β : Type} {R : α → β → Prop} :
    ∀ {l1 : List α} {l2 : List β}, List.Forall₂ R l1 l2 →
      ∀ b ∈ l2, ∃ a, a ∈ l1 ∧ R a b := by
  intro l1 l2 h
  induction h with
  | nil =>
    intro b hb
    exact absurd hb (List.not_mem_nil _)
  | cons hr _ ih =>
    intro b hb
    rcases List.mem_cons.mp hb with rfl | hb2
    · exact ⟨_, List.mem_cons_self _ _, hr⟩
    · obtain ⟨a, ha, hra⟩ := ih b hb2
      exact ⟨a, List.mem_cons_of_mem _ ha, hra⟩

/-- Claim C2: a successful assemble_update_multi_client_transaction draft
spends exactly the supplied oldest and info cells (in that order, never
more), outputs exactly the rebuilt ClientInfo (its last_id being the id
decoded from the spent oldest cell data) followed by the supplied updated
client record, and both outputs carry the same lock script and the same
type script built from the unchanged client_type_args. -/
theorem assemble_update_spends_two_and_rebuilds
    (oc ic : LiveCell) (uc : CellData) (cta : ClientTypeArgs)
    (la ca : List Nat) (pu : Nat) (cc lc : LiveCell)
    (d : Draft) (r : List CellOutput)
    (h : assembleUpdateMultiClientTransaction oc ic uc cta la ca pu cc lc =
      AsmResult.ok (d, r)) :
    d.inputs = [⟨oc.outPoint, 0⟩, ⟨ic.outPoint, 0⟩] ∧
    d.outputsData = [setLastId ic.outputData oc.outputData.clientId, uc] ∧
    (setLastId ic.outputData oc.outputData.clientId).infoLastId = oc.outputData.clientId ∧
    d.outputs.length = 2 ∧
    (∀ o ∈ d.outputs,
      o.lock = makeTypeidScript la ∧
      o.type_ = some ⟨calcScriptHash (makeTypeidScript ca), HashType.typeHash,
        ScriptArgs.clientTypeArgs cta.cellsCount cta.typeId⟩) ∧
    r = [oc.output, ic.output] := by
  unfold assembleUpdateMultiClientTransaction at h
  dsimp only at h
  split at h
  · exact AsmResult.noConfusion h
  · next o1 heq1 =>
    split at h
    · exact AsmResult.noConfusion h
    · next o2 heq2 =>
      injection h with h1
      injection h1 with hd hr
      subst hd
      subst hr
      have e1 := buildExactCapacity_ok _ _ _ _ heq1
      have e2 := buildExactCapacity_ok _ _ _ _ heq2
      subst e1
      subst e2
      refine ⟨rfl, rfl, rfl, rfl, ?_, rfl⟩
      intro o ho
      rcases List.mem_cons.mp ho with rfl | ho2
      · exact ⟨rfl, rfl⟩
      · rcases List.mem_cons.mp ho2 with rfl | ho3
        · exact ⟨rfl, rfl⟩
        · exact absurd ho3 (List.not_mem_nil _)

/-- Witness for Claim C2 on the example two-cell group. -/
theorem assemble_update_spends_two_and_rebuilds_witness :
    (assembleUpdateMultiClientTransaction cellClientEx cellInfoEx dataClientUpdEx ctaEx
      [] [2] 0 contractCellEx lockCellEx = AsmResult.ok (draftUpdEx, inputsUpdEx)) ∧
    (draftUpdEx.inputs = [⟨cellClientEx.outPoint, 0⟩, ⟨cellInfoEx.outPoint, 0⟩] ∧
      draftUpdEx.outputsData =
        [setLastId cellInfoEx.outputData cellClientEx.outputData.clientId, dataClientUpdEx] ∧
      (setLastId cellInfoEx.outputData cellClientEx.outputData.clientId).infoLastId =
        cellClientEx.outputData.clientId ∧
      draftUpdEx.outputs.length = 2 ∧
      (∀ o ∈ draftUpdEx.outputs,
        o.lock = makeTypeidScript [] ∧
        o.type_ = some ⟨calcScriptHash (makeTypeidScript [2]), HashType.typeHash,
          ScriptArgs.clientTypeArgs ctaEx.cellsCount ctaEx.typeId⟩) ∧
      inputsUpdEx = [cellClientEx.output, cellInfoEx.output]) :=
  ⟨by decide,
   assemble_update_spends_two_and_rebuilds cellClientEx cellInfoEx dataClientUpdEx ctaEx
     [] [2] 0 contractCellEx lockCellEx draftUpdEx inputsUpdEx (by decide)⟩

/-- Claim C6: a successful assemble_create_multi_client_transaction draft
has output data ClientInfo first then one entry per client record (so
clients.len() + 1 protocol outputs), spends the searched funding cells, and
every output carries the same lock script and the same type script whose
args are the ClientTypeArgs of cells_count clients.len() + 1 and the
type id derived from the first funding input and that count. -/
theorem assemble_create_shape
    (clients : List CellData) (ci : CellData) (la ca : List Nat) (pu : Nat)
    (cc lc : LiveCell) (ics : List LiveCell) (fc : LiveCell)
    (d : Draft) (r : List CellOutput)
    (hn : clients.length + 1 ≤ 255)
    (hf : ics.head? = some fc)
    (h : assembleCreateMultiClientTransaction clients ci la ca pu cc lc ics =
      AsmResult.ok (d, r)) :
    d.outputsData = ci :: clients ∧
    d.outputs.length = clients.length + 1 ∧
    d.inputs = ics.map (fun c => (⟨c.outPoint, 0⟩ : CellInput)) ∧
    (∀ o ∈ d.outputs,
      o.lock = makeTypeidScript la ∧
      o.type_ = some ⟨calcScriptHash (makeTypeidScript ca), HashType.typeHash,
        ScriptArgs.clientTypeArgs (clients.length + 1)
          (TypeId.fromInput ⟨fc.outPoint, 0⟩ (clients.length + 1))⟩) := by
  have hmod : (clients.length + 1) % 256 = clients.length + 1 :=
    Nat.mod_eq_of_lt (by omega)
  unfold assembleCreateMultiClientTransaction at h
  dsimp only at h
  rw [hmod] at h
  split at h
  · next heq =>
    rw [List.head?_map, hf] at heq
    simp at heq
  · next fi heq =>
    have hfi : fi = ⟨fc.outPoint, 0⟩ := by
      rw [List.head?_map, hf] at heq
      simp at heq
      exact heq.symm
    subst hfi
    split at h
    · exact AsmResult.noConfusion h
    · next outs heq2 =>
      injection h with h1
      injection h1 with hd hr
      subst hd
      have hfa := buildOutputs_ok _ _ _ _ heq2
      refine ⟨rfl, ?_, rfl, ?_⟩
      · have := hfa.length_eq
        simpa using this.symm
      · intro o ho
        obtain ⟨dd, _, hcap⟩ := forall₂_mem_right hfa o ho
        have := buildExactCapacity_ok _ _ _ _ hcap
        rw [this]
        exact ⟨rfl, rfl⟩

/-- Witness for Claim C6 on a one-client creation. -/
theorem assemble_create_shape_witness :
    (1 + 1 ≤ 255 ∧ [fundingCellEx].head? = some fundingCellEx ∧
      assembleCreateMultiClientTransaction [dataClientEx] dataInfoEx [] [2] 0
        contractCellEx lockCellEx [fundingCellEx] =
        AsmResult.ok (draftCrEx, [⟨900, lockScriptEx, none⟩])) ∧
    (draftCrEx.outputsData = dataInfoEx :: [dataClientEx] ∧
      draftCrEx.outputs.length = [dataClientEx].length + 1 ∧
      draftCrEx.inputs = [fundingCellEx].map (fun c => (⟨c.outPoint, 0⟩ : CellInput)) ∧
      (∀ o ∈ draftCrEx.outputs,
        o.lock = makeTypeidScript [] ∧
        o.type_ = some ⟨calcScriptHash (makeTypeidScript [2]), HashType.typeHash,
          ScriptArgs.clientTypeArgs ([dataClientEx].length + 1)
            (TypeId.fromInput ⟨fundingCellEx.outPoint, 0⟩ ([dataClientEx].length + 1))⟩)) :=
  ⟨⟨by decide, by decide, by decide⟩,
   assemble_create_shape [dataClientEx] dataInfoEx [] [2] 0 contractCellEx lockCellEx
     [fundingCellEx] fundingCellEx draftCrEx [⟨900, lockScriptEx, none⟩]
     (by decide) (by decide) (by decide)⟩

/-- Claim C5 (amended): every output cell built by the three draft builders
carries the minimal exact-fit capacity for its payload — the payload byte
length plus the fixed occupied overhead of the capacity field and its lock
and type scripts, in shannons, with no slack — and the capacity computation
fails loudly (panics) exactly when it overflows the u64 range, never
truncating. -/
theorem outputs_exact_occupied_capacity :
    (∀ (oc ic : LiveCell) (uc : CellData) (cta : ClientTypeArgs) (la ca : List Nat)
        (pu : Nat) (cc lc : LiveCell) (d : Draft) (r : List CellOutput),
      assembleUpdateMultiClientTransaction oc ic uc cta la ca pu cc lc =
        AsmResult.ok (d, r) →
      List.Forall₂ (fun (dd : CellData) (o : CellOutput) =>
        o.capacity = exactCapacity o.lock o.type_ dd.len) d.outputsData d.outputs) ∧
    (∀ (clients : List CellData) (ci : CellData) (la ca : List Nat) (pu : Nat)
        (cc lc : LiveCell) (ics : List LiveCell) (d : Draft) (r : List CellOutput),
      assembleCreateMultiClientTransaction clients ci la ca pu cc lc ics =
        AsmResult.ok (d, r) →
      List.Forall₂ (fun (dd : CellData) (o : CellOutput) =>
        o.capacity = exactCapacity o.lock o.type_ dd.len) d.outputsData d.outputs) ∧
    (∀ (pc : CellData) (pu : Nat) (la ca cid aa : List Nat) (cc mlc : LiveCell)
        (lco : Option LiveCell) (d : Draft) (r : List CellOutput),
      assembleUpdatesIntoTransaction pc pu la ca cid aa cc mlc lco =
        AsmResult.ok (d, r) →
      List.Forall₂ (fun (dd : CellData) (o : CellOutput) =>
        o.capacity = exactCapacity o.lock o.type_ dd.len) d.outputsData d.outputs) ∧
    (∀ (lock : Script) (t : Option Script) (n : Nat),
      buildExactCapacity lock t n = AsmResult.fatal PanicMsg.capacityOverflow ↔
        2 ^ 64 ≤ exactCapacity lock t n) := by
  refine ⟨?_, ?_, ?_, ?_⟩
  · intro oc ic uc cta la ca pu cc lc d r h
    unfold assembleUpdateMultiClientTransaction at h
    dsimp only at h
    split at h
    · exact AsmResult.noConfusion h
    · next o1 heq1 =>
      split at h
      · exact AsmResult.noConfusion h
      · next o2 heq2 =>
        injection h with h1
        injection h1 with hd _
        subst hd
        have e1 := buildExactCapacity_ok _ _ _ _ heq1
        have e2 := buildExactCapacity_ok _ _ _ _ heq2
        subst e1
        subst e2
        exact List.Forall₂.cons rfl (List.Forall₂.cons rfl List.Forall₂.nil)
  · intro clients ci la ca pu cc lc ics d r h
    unfold assembleCreateMultiClientTransaction at h
    dsimp only at h
    split at h
    · exact AsmResult.noConfusion h
    · next fi heq =>
      split at h
      · exact AsmResult.noConfusion h
      · next outs heq2 =>
        injection h with h1
        injection h1 with hd _
        subst hd
        refine (buildOutputs_ok _ _ _ _ heq2).imp ?_
        intro dd o hcap
        have := buildExactCapacity_ok _ _ _ _ hcap
        rw [this]
  · intro pc pu la ca cid aa cc mlc lco d r h
    unfold assembleUpdatesIntoTransaction at h
    dsimp only at h
    split at h
    · exact AsmResult.noConfusion h
    · next o1 heq1 =>
      injection h with h1
      injection h1 with hd _
      subst hd
      have e1 := buildExactCapacity_ok _ _ _ _ heq1
      subst e1
      exact List.Forall₂.cons rfl List.Forall₂.nil
  · intro lock t n
    constructor
    · intro h
      unfold buildExactCapacity at h
      split at h
      · exact AsmResult.noConfusion h
      · next hlt => omega
    · intro hge
      unfold buildExactCapacity
      rw [if_neg (by omega)]

/-- Witness for Claim C5: the three builders evaluated on concrete inputs
plus a concrete overflow panic of the capacity computation. -/
theorem outputs_exact_occupied_capacity_witness :
    ((assembleUpdateMultiClientTransaction cellClientEx cellInfoEx dataClientUpdEx ctaEx
        [] [2] 0 contractCellEx lockCellEx = AsmResult.ok (draftUpdEx, inputsUpdEx)) ∧
      List.Forall₂ (fun (dd : CellData) (o : CellOutput) =>
        o.capacity = exactCapacity o.lock o.type_ dd.len)
        draftUpdEx.outputsData draftUpdEx.outputs) ∧
    ((assembleCreateMultiClientTransaction [dataClientEx] dataInfoEx [] [2] 0
        contractCellEx lockCellEx [fundingCellEx] =
        AsmResult.ok (draftCrEx, [⟨900, lockScriptEx, none⟩])) ∧
      List.Forall₂ (fun (dd : CellData) (o : CellOutput) =>
        o.capacity = exactCapacity o.lock o.type_ dd.len)
        draftCrEx.outputsData draftCrEx.outputs) ∧
    ((assembleUpdatesIntoTransaction dataClientUpdEx 0 [] [2] [7] [8]
        contractCellEx lockCellEx (some cellClientEx) =
        AsmResult.ok (draftSgEx, [⟨600, lockScriptEx, some typeScriptEx⟩])) ∧
      List.Forall₂ (fun (dd : CellData) (o : CellOutput) =>
        o.capacity = exactCapacity o.lock o.type_ dd.len)
        draftSgEx.outputsData draftSgEx.outputs) ∧
    (2 ^ 64 ≤ exactCapacity lockScriptEx none 200000000000 ∧
      buildExactCapacity lockScriptEx none 200000000000 =
        AsmResult.fatal PanicMsg.capacityOverflow) :=
  ⟨⟨by decide,
    outputs_exact_occupied_capacity.1 cellClientEx cellInfoEx dataClientUpdEx ctaEx
      [] [2] 0 contractCellEx lockCellEx draftUpdEx inputsUpdEx (by decide)⟩,
   ⟨by decide,
    outputs_exact_occupied_capacity.2.1 [dataClientEx] dataInfoEx [] [2] 0
      contractCellEx lockCellEx [fundingCellEx] draftCrEx
      [⟨900, lockScriptEx, none⟩] (by decide)⟩,
   ⟨by decide,
    outputs_exact_occupied_capacity.2.2.1 dataClientUpdEx 0 [] [2] [7] [8]
      contractCellEx lockCellEx (some cellClientEx) draftSgEx
      [⟨600, lockScriptEx, some typeScriptEx⟩] (by decide)⟩,
   ⟨by decide,
    (outputs_exact_occupied_capacity.2.2.2 lockScriptEx none 200000000000).mpr
      (by decide)⟩⟩

/-- Counterexample to Claim C5 as stated: in a concrete successful update
draft, the output capacities are not the byte lengths of the payloads (they
additionally carry the occupied overhead of the cell header and scripts,
expressed in shannons). -/
theorem output_capacity_not_payload_length :
    assembleUpdateMultiClientTransaction cellClientEx cellInfoEx dataClientUpdEx ctaEx
      [] [2] 0 contractCellEx lockCellEx = AsmResult.ok (draftUpdEx, inputsUpdEx) ∧
    draftUpdEx.outputs.map CellOutput.capacity ≠ draftUpdEx.outputsData.map CellData.len := by
  decide

/-! Helper lemmas about the cache model. -/

/-- Membership after a HashMap-style insert: the pair is the new binding or
was already present. -/
theorem insertA_mem {κ α : Type} [DecidableEq κ] (m : List (κ × α)) (k0 k : κ) (v0 v : α)
    (h : (k, v) ∈ insertA m k0 v0) : (k = k0 ∧ v = v0) ∨ (k, v) ∈ m := by
  unfold insertA at h
  rcases List.mem_cons.mp h with h1 | h2
  · injection h1 with ha hb
    exact Or.inl ⟨ha, hb⟩
  · exact Or.inr (List.mem_filter.mp h2).1

/-- Additions made by the unreceived-acknowledgement pipeline are exactly
the (channel, port, sequence) bindings of the yielded sequences, and every
yielded sequence comes from a successfully fetched packet with status
Send. -/
theorem unreceivedAcksGo_spec (fetch : Nat → Option (IbcPacket × CellInput))
    (chan port : Nat) :
    ∀ (seqs : List Nat) (data : List ((Nat × Nat × Nat) × CellInput)),
      (∀ k v, (k, v) ∈ (unreceivedAcksGo fetch chan port seqs data).2 →
        (k, v) ∈ data ∨
        (k.1 = chan ∧ k.2.1 = port ∧
          k.2.2 ∈ (unreceivedAcksGo fetch chan port seqs data).1)) ∧
      (∀ s ∈ (unreceivedAcksGo fetch chan port seqs data).1,
        ∃ q pk ci, fetch q = some (pk, ci) ∧ pk.status = PacketStatus.Send ∧
          s = pk.packet.sequence) := by
  intro seqs
  induction seqs with
  | nil =>
    intro data
    constructor
    · intro k v hkv
      exact Or.inl hkv
    · intro s hs
      simp [unreceivedAcksGo] at hs
  | cons q rest ih =>
    intro data
    rcases hq : fetch q with _ | ⟨pk, ci⟩
    · have hg : unreceivedAcksGo fetch chan port (q :: rest) data =
          unreceivedAcksGo fetch chan port rest data := by
        simp [unreceivedAcksGo, hq]
      rw [hg]
      exact ih data
    · by_cases hst : pk.status = PacketStatus.Send
      · have hg : unreceivedAcksGo fetch chan port (q :: rest) data =
            (pk.packet.sequence ::
              (unreceivedAcksGo fetch chan port rest
                (insertA data (chan, port, pk.packet.sequence) ci)).1,
             (unreceivedAcksGo fetch chan port rest
                (insertA data (chan, port, pk.packet.sequence) ci)).2) := by
          simp [unreceivedAcksGo, hq, hst]
        rw [hg]
        obtain ⟨ihm, ihs⟩ := ih (insertA data (chan, port, pk.packet.sequence) ci)
        constructor
        · intro k v hkv
          rcases ihm k v hkv with hin | ⟨h1, h2, h3⟩
          · rcases insertA_mem _ _ _ _ _ hin with ⟨hk, _⟩ | hold
            · subst hk
              exact Or.inr ⟨rfl, rfl, List.mem_cons_self _ _⟩
            · exact Or.inl hold
          · exact Or.inr ⟨h1, h2, List.mem_cons_of_mem _ h3⟩
        · intro s hs
          rcases List.mem_cons.mp hs with rfl | hs2
          · exact ⟨q, pk, ci, hq, hst, rfl⟩
          · exact ihs s hs2
      · have hg : unreceivedAcksGo fetch chan port (q :: rest) data =
            unreceivedAcksGo fetch chan port rest data := by
          simp [unreceivedAcksGo, hq, hst]
        rw [hg]
        exact ih data

/-- Claim C4 (amended): whenever send_messages_and_wait_commit returns Ok,
all four caches are empty (clear_cache runs only on the full-success
path). -/
theorem send_messages_ok_clears_caches (env : SendEnv) (st : Caches)
    (r : List Nat) (st' : Caches)
    (h : sendMessagesAndWaitCommit env st = some (QResult.ok r, st')) :
    st' = emptyCaches := by
  unfold sendMessagesAndWaitCommit at h
  split at h
  · exact Option.noConfusion h
  · split at h
    · simp_all
    · split at h
      · simp_all
      · injection h with h1
        injection h1 with ha hb
        rw [← hb]
        rfl

/-- Witness for Claim C4 (amended) on a run with no messages. -/
theorem send_messages_ok_clears_caches_witness :
    (sendMessagesAndWaitCommit envOkEx emptyCaches = some (QResult.ok [], emptyCaches)) ∧
    emptyCaches = emptyCaches :=
  ⟨by decide, send_messages_ok_clears_caches envOkEx emptyCaches [] emptyCaches (by decide)⟩

/-- Counterexample to Claim C4 as stated: a run whose single message fails
conversion returns Err while the connection cache (populated by
get_converter at the start of the call) is left nonempty — the caches are
not cleared on the Err path. -/
theorem send_messages_err_leaves_cache :
    sendMessagesAndWaitCommit envErrEx emptyCaches =
      some (QResult.err, ⟨[], [], [], some (7, ciEx)⟩) ∧
    (⟨[], [], [], some (7, ciEx)⟩ : Caches).connectionCache ≠ none := by
  decide

/-- Claim C7: query_channel tries the not-open predicate variant first and
the open variant only if the first lookup fails, returns the channel end of
whichever lookup succeeds first, reports not-found only after both variants
failed, and never performs more than two lookups. -/
theorem query_channel_two_variant_fallback (env : Bool → Option ChannelFetched)
    (st : Caches) :
    (∀ f, env false = some f →
      (queryChannel env st).1 = QResult.ok f.channelEnd ∧
      (queryChannel env st).2.2 = [false]) ∧
    (env false = none → ∀ f, env true = some f →
      (queryChannel env st).1 = QResult.ok f.channelEnd ∧
      (queryChannel env st).2.2 = [false, true]) ∧
    (env false = none → env true = none →
      (queryChannel env st).1 = QResult.err ∧
      (queryChannel env st).2.2 = [false, true]) ∧
    (queryChannel env st).2.2.length ≤ 2 := by
  refine ⟨?_, ?_, ?_, ?_⟩
  · intro f hf
    simp [queryChannel, fetchChannelCellAndExtract, hf]
  · intro hf f ht
    simp [queryChannel, fetchChannelCellAndExtract, hf, ht]
  · intro hf ht
    simp [queryChannel, fetchChannelCellAndExtract, hf, ht]
  · rcases hf : env false with _ | f
    · rcases ht : env true with _ | g
      · simp [queryChannel, fetchChannelCellAndExtract, hf, ht]
      · simp [queryChannel, fetchChannelCellAndExtract, hf, ht]
    · simp [queryChannel, fetchChannelCellAndExtract, hf]

/-- Witness for Claim C7: environments where the first variant succeeds,
where only the second succeeds, and where both fail. -/
theorem query_channel_two_variant_fallback_witness :
    ((queryChannel envChanA emptyCaches).1 = QResult.ok chanFEx.channelEnd ∧
      (queryChannel envChanA emptyCaches).2.2 = [false]) ∧
    ((queryChannel envChanB emptyCaches).1 = QResult.ok chanFEx.channelEnd ∧
      (queryChannel envChanB emptyCaches).2.2 = [false, true]) ∧
    ((queryChannel (fun _ => none) emptyCaches).1 = QResult.err ∧
      (queryChannel (fun _ => none) emptyCaches).2.2 = [false, true]) :=
  ⟨(query_channel_two_variant_fallback envChanA emptyCaches).1 chanFEx (by decide),
   (query_channel_two_variant_fallback envChanB emptyCaches).2.1 (by decide) chanFEx (by decide),
   (query_channel_two_variant_fallback (fun _ => none) emptyCaches).2.2.1 rfl rfl⟩

/-- Claim C8: when the packet fetch succeeds but the decoded status is not
Send, query_packet_commitment returns Ok with an empty byte vector, not an
error. -/
theorem query_packet_commitment_non_send_empty
    (p : IbcPacket) (ci : CellInput) (ch : Nat)
    (h : p.status ≠ PacketStatus.Send) :
    queryPacketCommitment (QResult.ok (p, ci)) ch = QResult.ok [] := by
  simp [queryPacketCommitment, h]

/-- Witness for Claim C8 on a packet with status Recv. -/
theorem query_packet_commitment_non_send_empty_witness :
    pktRecvEx.status ≠ PacketStatus.Send ∧
    queryPacketCommitment (QResult.ok (pktRecvEx, ciEx)) 3 = QResult.ok [] :=
  ⟨by decide, query_packet_commitment_non_send_empty pktRecvEx ciEx 3 (by decide)⟩

/-- Claim C10: the two acknowledgement queries never return an error caused
by a per-sequence fetch — a failing sequence is silently dropped from the
result — and query_unreceived_acknowledgements records a packet input in
the packet cache only under (channel, port, sequence) keys of returned
sequences, all of which come from successfully fetched packets with status
Send. -/
theorem packet_ack_queries_skip_failed_fetches
    (fetch : Nat → Option (IbcPacket × CellInput)) (chan port : Nat)
    (seqs : List Nat) (st : Caches) :
    (∃ l, queryPacketAcknowledgements fetch seqs = QResult.ok l) ∧
    (∀ s rest, fetch s = none →
      queryPacketAcknowledgements fetch (s :: rest) =
        queryPacketAcknowledgements fetch rest) ∧
    (∃ l, (queryUnreceivedAcknowledgements fetch chan port seqs st).1 = QResult.ok l) ∧
    (∀ s rest, fetch s = none →
      queryUnreceivedAcknowledgements fetch chan port (s :: rest) st =
        queryUnreceivedAcknowledgements fetch chan port rest st) ∧
    (∀ k v,
      (k, v) ∈ (queryUnreceivedAcknowledgements fetch chan port seqs st).2.packetInputData →
      (k, v) ∈ st.packetInputData ∨
      (k.1 = chan ∧ k.2.1 = port ∧
        k.2.2 ∈ (unreceivedAcksGo fetch chan port seqs st.packetInputData).1)) ∧
    (∀ l s, (queryUnreceivedAcknowledgements fetch chan port seqs st).1 = QResult.ok l →
      s ∈ l →
      ∃ q pk ci, fetch q = some (pk, ci) ∧ pk.status = PacketStatus.Send ∧
        s = pk.packet.sequence) := by
  refine ⟨⟨_, rfl⟩, ?_, ⟨_, rfl⟩, ?_, ?_, ?_⟩
  · intro s rest hs
    simp [queryPacketAcknowledgements, List.filterMap_cons, hs]
  · intro s rest hs
    simp [queryUnreceivedAcknowledgements, unreceivedAcksGo, hs]
  · intro k v hkv
    exact (unreceivedAcksGo_spec fetch chan port seqs st.packetInputData).1 k v hkv
  · intro l s h1 h2
    have hl : l = (unreceivedAcksGo fetch chan port seqs st.packetInputData).1 := by
      simpa [queryUnreceivedAcknowledgements] using h1.symm
    rw [hl] at h2
    exact (unreceivedAcksGo_spec fetch chan port seqs st.packetInputData).2 s h2

/-- Witness for Claim C10: a concrete fetch oracle failing on sequence 2
and succeeding on sequence 1 with a Send packet. -/
theorem packet_ack_queries_skip_failed_fetches_witness :
    (queryPacketAcknowledgements fetchPktEx (2 :: [1]) =
      queryPacketAcknowledgements fetchPktEx [1]) ∧
    (queryUnreceivedAcknowledgements fetchPktEx 3 4 (2 :: [1]) emptyCaches =
      queryUnreceivedAcknowledgements fetchPktEx 3 4 [1] emptyCaches) ∧
    (∃ q pk ci, fetchPktEx q = some (pk, ci) ∧ pk.status = PacketStatus.Send ∧
      1 = pk.packet.sequence) :=
  ⟨(packet_ack_queries_skip_failed_fetches fetchPktEx 3 4 [1] emptyCaches).2.1
      2 [1] (by decide),
   (packet_ack_queries_skip_failed_fetches fetchPktEx 3 4 [1] emptyCaches).2.2.2.1
      2 [1] (by decide),
   (packet_ack_queries_skip_failed_fetches fetchPktEx 3 4 [1, 2] emptyCaches).2.2.2.2.2
      [1] 1 (by decide) (by decide)⟩

end Forcerelay
